import Mathlib

/-!
Verification development for the WordPress backup tool (scripts/wp_backup.py).

The definitions below are a shallow embedding of the functions of the source
file: `sanitizeFilename` embeds `_sanitize_filename`, `collectLoop` and
`backupContentType` embed the pagination loop of `_backup_content_type`,
`downloadMediaFile` embeds `_download_media_file`, `processCollections` and
`runBackup` embed the collection loop and status handling of `run_backup`,
and `initWpClient` embeds `_init_wp_client`.  Strings are Lean strings
(sequences of Unicode code points, as in Python); the remote API is modelled
as a script of responses consumed in order; the local filesystem is modelled
as a map from paths to file sizes.
-/

set_option maxRecDepth 20000

/-! ### Filename sanitization (`_sanitize_filename`) -/

/-- Characters replaced by the source's loop over the string of invalid
characters, `invalid_chars = '<>:"/\\|?*'`. -/
def isInvalidFilenameChar (c : Char) : Bool :=
  c == '<' || c == '>' || c == ':' || c == '"' || c == '/' || c == '\\' ||
    c == '|' || c == '?' || c == '*'

/-- Model of Python's per-character `str.isprintable`: ASCII control
characters (below U+0020), DEL (U+007F), the C1 controls (U+0080..U+009F),
NO-BREAK SPACE (U+00A0) and SOFT HYPHEN (U+00AD) are not printable; other
code points are treated as printable.  This matches Python exactly on the
Latin-1 range; the remaining non-printable Unicode categories are not needed
by any claim. -/
def pyIsPrintable (c : Char) : Bool :=
  if c.toNat < 0x20 then false
  else if c.toNat == 0x7f then false
  else if 0x80 ≤ c.toNat && c.toNat ≤ 0x9f then false
  else if c.toNat == 0xa0 || c.toNat == 0xad then false
  else true

/-- Model of the characters removed by Python's `str.strip()` with no
argument (ASCII whitespace; the non-ASCII whitespace code points cannot
survive the replacement passes, which map them to an underscore). -/
def pyIsSpace (c : Char) : Bool :=
  c == ' ' || c == '\t' || c == '\n' || c == '\r' || c == '\x0b' || c == '\x0c'

/-- Test used for the source's final `not filename or filename.strip() == ''`
check: true exactly when every character is stripped whitespace (the empty
string satisfies this vacuously, matching the `not filename` disjunct). -/
def stripIsEmpty (s : String) : Bool :=
  s.data.all pyIsSpace

/-- Replacement pass for the invalid characters.  The source performs nine
successive single-character `str.replace` calls, each sending one of the
invalid characters to an underscore; since the replacement character is not
itself in the invalid set, the nine passes amount to this character map. -/
def replaceInvalidChars (s : String) : String :=
  ⟨s.data.map (fun c => if isInvalidFilenameChar c then '_' else c)⟩

/-- Replacement pass for non-printable characters, from the source's
generator expression joining `c if c.isprintable() else '_'`. -/
def replaceNonPrintable (s : String) : String :=
  ⟨s.data.map (fun c => if pyIsPrintable c then c else '_')⟩

/-- Model of Python's `s[:n]` slice for a possibly negative bound `n`, as in
the source's `base[:255 - len(ext)]`: a nonnegative bound keeps the first
`n` characters, a negative bound drops `-n` characters from the end
(clamped at the empty string). -/
def pySliceTo (s : String) (n : Int) : String :=
  if 0 ≤ n then ⟨s.data.take n.toNat⟩
  else ⟨s.data.take (s.data.length - (-n).toNat)⟩

/-- Index of the last dot of a character list, mirroring the `p.rfind('.')`
step inside `os.path.splitext`. -/
def lastDotIdx : List Char → Option Nat
  | [] => none
  | c :: cs =>
    match lastDotIdx cs with
    | some j => some (j + 1)
    | none => if c == '.' then some 0 else none

/-- Model of `os.path.splitext` (POSIX flavour) for inputs without a path
separator, which is what `_sanitize_filename` feeds it after the slash has
been replaced: the extension starts at the last dot, except that a name
consisting only of dots up to that position has no extension. -/
def pySplitext (p : String) : String × String :=
  match lastDotIdx p.data with
  | none => (p, (""))
  | some i =>
    if (p.data.take i).all (fun c => c == '.') then (p, (""))
    else (⟨p.data.take i⟩, ⟨p.data.drop i⟩)

/-- Truncation stage of `_sanitize_filename`: when the name exceeds 255
characters (`len(filename) > 255` in the source), keep
`base[:255 - len(ext)] + ext` with `base, ext = os.path.splitext(filename)`. -/
def sanitizeTruncate (f2 : String) : String :=
  if 255 < f2.length then
    pySliceTo (pySplitext f2).1 (255 - ((pySplitext f2).2.length : Int)) ++
      (pySplitext f2).2
  else f2

/-- Embedding of `_sanitize_filename`: placeholder for the empty input, the
two replacement passes, the length-255 truncation preserving the
`os.path.splitext` extension, and the placeholder for a result that is
empty after stripping. -/
def sanitizeFilename (filename : String) : String :=
  if filename = ("") then ("unnamed_file")
  else if stripIsEmpty (sanitizeTruncate (replaceNonPrintable (replaceInvalidChars filename)))
    then ("unnamed_file")
    else sanitizeTruncate (replaceNonPrintable (replaceInvalidChars filename))

/-- Number of bytes of the UTF-8 encoding of a string, used to state the
byte-measured truncation bound of the specification. -/
def utf8Len (s : String) : Nat :=
  s.data.foldl (fun n c => n + c.utf8Size) 0

/-- Suffix test on strings, by code points. -/
def strEndsWith (s suffix : String) : Bool :=
  suffix.data.isSuffixOf s.data

/-- Name of 300 characters ending in the png extension, the concrete
truncation example of the specification. -/
def png300name : String :=
  String.mk (List.replicate 296 'x') ++ (".png")

/-! ### Lemmas about the sanitization passes -/

theorem string_data_append (a b : String) : (a ++ b).data = a.data ++ b.data :=
  rfl

theorem mem_replacePasses_clean (s : String) (c : Char)
    (hc : c ∈ (replaceNonPrintable (replaceInvalidChars s)).data) :
    isInvalidFilenameChar c = false ∧ pyIsPrintable c = true := by
  have hc' : c ∈ (s.data.map (fun c => if isInvalidFilenameChar c then '_' else c)).map
      (fun c => if pyIsPrintable c then c else '_') := hc
  obtain ⟨b, hb, rfl⟩ := List.mem_map.1 hc'
  obtain ⟨a, _, rfl⟩ := List.mem_map.1 hb
  by_cases h1 : isInvalidFilenameChar a = true
  · simp only [h1, if_true]
    decide
  · rw [Bool.not_eq_true] at h1
    simp only [h1, Bool.false_eq_true, if_false]
    by_cases h2 : pyIsPrintable a = true
    · simp only [h2, if_true]
      exact ⟨h1, trivial⟩
    · rw [Bool.not_eq_true] at h2
      simp only [h2, Bool.false_eq_true, if_false]
      decide

theorem lastDotIdx_spec :
    ∀ (cs : List Char) (i : Nat), lastDotIdx cs = some i →
      ∃ h : i < cs.length, cs[i] = '.' := by
  intro cs
  induction cs with
  | nil => intro i h; simp [lastDotIdx] at h
  | cons c cs ih =>
    intro i h
    unfold lastDotIdx at h
    cases hr : lastDotIdx cs with
    | some j =>
      rw [hr] at h
      injection h with h
      subst h
      obtain ⟨hj, hget⟩ := ih j hr
      exact ⟨Nat.succ_lt_succ hj, by simpa using hget⟩
    | none =>
      rw [hr] at h
      by_cases hc : c == '.'
      · simp only [hc, if_true] at h
        injection h with h
        subst h
        exact ⟨Nat.succ_pos _, by simpa using (beq_iff_eq.1 hc)⟩
      · simp only [hc, Bool.false_eq_true, if_false] at h
        exact Option.noConfusion h

theorem pySplitext_parts (p : String) :
    ∃ i, (pySplitext p).1.data = p.data.take i ∧ (pySplitext p).2.data = p.data.drop i := by
  unfold pySplitext
  split
  · exact ⟨p.data.length, by simp, by simp⟩
  · rename_i i _
    split_ifs with hall
    · exact ⟨p.data.length, by simp, by simp⟩
    · exact ⟨i, rfl, rfl⟩

theorem pySplitext_ext_empty_or_dot (p : String) :
    (pySplitext p).2 = ("") ∨ (pySplitext p).2.data.head? = some '.' := by
  unfold pySplitext
  split
  · exact Or.inl rfl
  · rename_i i h
    split_ifs with hall
    · exact Or.inl rfl
    · right
      obtain ⟨hi, hdot⟩ := lastDotIdx_spec p.data i h
      show (p.data.drop i).head? = some '.'
      rw [List.drop_eq_getElem_cons hi]
      simp [hdot]

theorem mem_of_mem_pySliceTo (s : String) (n : Int) (c : Char)
    (hc : c ∈ (pySliceTo s n).data) : c ∈ s.data := by
  unfold pySliceTo at hc
  split_ifs at hc <;> exact List.mem_of_mem_take hc

theorem pySliceTo_length_le (s : String) (n : Int) (hn : 0 ≤ n) :
    (pySliceTo s n).length ≤ n.toNat := by
  unfold pySliceTo
  rw [if_pos hn]
  show (s.data.take n.toNat).length ≤ n.toNat
  simp [List.length_take]

theorem mem_of_mem_sanitizeTruncate (f2 : String) (c : Char)
    (hc : c ∈ (sanitizeTruncate f2).data) : c ∈ f2.data := by
  unfold sanitizeTruncate at hc
  split_ifs at hc with h
  · rw [string_data_append] at hc
    obtain ⟨i, h1d, h2d⟩ := pySplitext_parts f2
    rcases List.mem_append.1 hc with h1 | h2
    · have hb := mem_of_mem_pySliceTo _ _ _ h1
      rw [h1d] at hb
      exact List.mem_of_mem_take hb
    · rw [h2d] at h2
      exact List.mem_of_mem_drop h2
  · exact hc

theorem sanitizeTruncate_short (f2 : String) (h : f2.length ≤ 255) :
    sanitizeTruncate f2 = f2 := by
  unfold sanitizeTruncate
  rw [if_neg (by omega)]

theorem string_length_append (a b : String) :
    (a ++ b).length = a.length + b.length := by
  show (a ++ b).data.length = a.data.length + b.data.length
  rw [string_data_append, List.length_append]

theorem sanitizeTruncate_length (f2 : String)
    (hext : (pySplitext f2).2.length ≤ 255) :
    (sanitizeTruncate f2).length ≤ 255 := by
  by_cases h : 255 < f2.length
  · unfold sanitizeTruncate
    rw [if_pos h, string_length_append]
    have hs := pySliceTo_length_le (pySplitext f2).1
      (255 - ((pySplitext f2).2.length : Int)) (by omega)
    omega
  · rw [sanitizeTruncate_short f2 (by omega)]
    omega

theorem sanitizeTruncate_endsWith (f2 : String) (h : 255 < f2.length) :
    strEndsWith (sanitizeTruncate f2) ((pySplitext f2).2) = true := by
  unfold sanitizeTruncate
  rw [if_pos h]
  show ((pySplitext f2).2.data.isSuffixOf _) = true
  rw [List.isSuffixOf_iff_suffix, string_data_append]
  exact List.suffix_append _ _

theorem sanitizeFilename_chars_clean (s : String) (c : Char)
    (hc : c ∈ (sanitizeFilename s).data) :
    isInvalidFilenameChar c = false ∧ pyIsPrintable c = true := by
  have hplaceholder : ∀ d ∈ (("unnamed_file") : String).data,
      isInvalidFilenameChar d = false ∧ pyIsPrintable d = true := by decide
  unfold sanitizeFilename at hc
  split_ifs at hc with h1 h2
  · exact hplaceholder c hc
  · exact hplaceholder c hc
  · exact mem_replacePasses_clean s c (mem_of_mem_sanitizeTruncate _ c hc)

theorem stripIsEmpty_sanitizeFilename (s : String) :
    stripIsEmpty (sanitizeFilename s) = false := by
  unfold sanitizeFilename
  split_ifs with h1 h2
  · decide
  · decide
  · simpa using h2

theorem sanitizeFilename_ne_empty (s : String) : sanitizeFilename s ≠ ("") := by
  intro h
  have hs := stripIsEmpty_sanitizeFilename s
  rw [h] at hs
  exact absurd hs (by decide)

theorem replaceInvalidChars_eq_self (s : String)
    (h : ∀ c ∈ s.data, isInvalidFilenameChar c = false) :
    replaceInvalidChars s = s := by
  unfold replaceInvalidChars
  have hmap : s.data.map (fun c => if isInvalidFilenameChar c then '_' else c) = s.data := by
    conv_rhs => rw [← List.map_id s.data]
    exact List.map_congr_left (fun a ha => by rw [h a ha]; simp)
  rw [hmap]

theorem replaceNonPrintable_eq_self (s : String)
    (h : ∀ c ∈ s.data, pyIsPrintable c = true) :
    replaceNonPrintable s = s := by
  unfold replaceNonPrintable
  have hmap : s.data.map (fun c => if pyIsPrintable c then c else '_') = s.data := by
    conv_rhs => rw [← List.map_id s.data]
    exact List.map_congr_left (fun a ha => by rw [h a ha]; simp)
  rw [hmap]

theorem sanitizeFilename_fixed (r : String) (hne : r ≠ (""))
    (hclean : ∀ c ∈ r.data, isInvalidFilenameChar c = false ∧ pyIsPrintable c = true)
    (hstrip : stripIsEmpty r = false) (hlen : r.length ≤ 255) :
    sanitizeFilename r = r := by
  unfold sanitizeFilename
  rw [if_neg hne,
    replaceInvalidChars_eq_self r (fun c hc => (hclean c hc).1),
    replaceNonPrintable_eq_self r (fun c hc => (hclean c hc).2),
    sanitizeTruncate_short r hlen, if_neg (by simp [hstrip])]

/-! ### Claims C6 and C10: `_sanitize_filename` -/

/-- C6 counterexample: the claim's universally quantified truncation bound
"truncates the result to at most 255 bytes" fails on the code.  On the
302-character input whose extension computed by `os.path.splitext` is 301
characters long, `base[:255 - len(ext)]` receives a negative bound, the
whole base is dropped and the entire 301-character (301-byte) extension is
kept, so the sanitized name occupies more than 255 bytes. -/
theorem sanitize_filename_byte_bound_fails :
    ¬ utf8Len (sanitizeFilename (("a.") ++ String.mk (List.replicate 300 'b'))) ≤ 255 := by
  decide

/-- C6 (amended): for every input string, sanitization replaces each of the
characters < > : " / \ | ? * and every non-printable character with an
underscore (no such character survives in the output), truncates the
result to at most 255 characters — not bytes — while preserving the
splitext extension, provided the extension is itself at most 255
characters (an extension longer than 255 characters is kept whole and the
bound is exceeded), and substitutes the fixed placeholder name when the
result is empty; in particular sanitizing a/b\c:d?e yields a_b_c_d_e, a
300-character ASCII name ending in .png is truncated to at most 255 bytes
still ending in .png, and the empty string yields the placeholder name. -/
theorem sanitize_filename_spec (s : String) :
    (∀ c ∈ (sanitizeFilename s).data,
        isInvalidFilenameChar c = false ∧ pyIsPrintable c = true)
    ∧ ((pySplitext (replaceNonPrintable (replaceInvalidChars s))).2.length ≤ 255 →
        (sanitizeFilename s).length ≤ 255)
    ∧ (255 < (replaceNonPrintable (replaceInvalidChars s)).length →
        strEndsWith (sanitizeFilename s)
          ((pySplitext (replaceNonPrintable (replaceInvalidChars s))).2) = true)
    ∧ sanitizeFilename ("a/b\\c:d?e") = ("a_b_c_d_e")
    ∧ utf8Len (sanitizeFilename png300name) ≤ 255
    ∧ strEndsWith (sanitizeFilename png300name) ((".png")) = true
    ∧ sanitizeFilename ("") = ("unnamed_file") := by
  refine ⟨sanitizeFilename_chars_clean s, ?_, ?_, by decide, by decide, by decide, by decide⟩
  · intro hext
    unfold sanitizeFilename
    split_ifs with h1 h2
    · decide
    · decide
    · exact sanitizeTruncate_length _ hext
  · intro hlong
    unfold sanitizeFilename
    split_ifs with h1 h2
    · subst h1
      exact absurd hlong (by decide)
    · rcases pySplitext_ext_empty_or_dot (replaceNonPrintable (replaceInvalidChars s)) with
        hext | hext
      · rw [hext]
        decide
      · exfalso
        have hdotmem : '.' ∈
            (sanitizeTruncate (replaceNonPrintable (replaceInvalidChars s))).data := by
          unfold sanitizeTruncate
          rw [if_pos hlong, string_data_append]
          exact List.mem_append.2 (Or.inr (List.mem_of_mem_head? hext))
        have := (List.all_eq_true.1 h2) '.' hdotmem
        exact absurd this (by decide)
    · exact sanitizeTruncate_endsWith _ hlong

/-- C6 witness: the amended theorem applied at a concrete input, with the
membership and extension-length hypotheses discharged. -/
theorem sanitize_filename_spec_witness :
    ('o' ∈ (sanitizeFilename ("ok.txt")).data ∧
      isInvalidFilenameChar 'o' = false ∧ pyIsPrintable 'o' = true) ∧
    ((pySplitext (replaceNonPrintable (replaceInvalidChars ("ok.txt")))).2.length ≤ 255 ∧
      (sanitizeFilename ("ok.txt")).length ≤ 255) :=
  ⟨⟨by decide, (sanitize_filename_spec ("ok.txt")).1 'o' (by decide)⟩,
   ⟨by decide, (sanitize_filename_spec ("ok.txt")).2.1 (by decide)⟩⟩

/-- C10 counterexample: sanitization is not idempotent.  On the
302-character input with a 301-character extension the first application
returns the whole 301-character extension (which begins with a dot); a
second application sees a name longer than 255 characters whose splitext
extension is empty (the single dot is a leading dot), so it truncates to
255 characters, a different string. -/
theorem sanitize_filename_not_idempotent :
    sanitizeFilename (sanitizeFilename (("c.") ++ String.mk (List.replicate 300 'd'))) ≠
      sanitizeFilename (("c.") ++ String.mk (List.replicate 300 'd')) := by
  decide

/-- C10 (amended): sanitization is idempotent on every input whose
sanitized result is at most 255 characters long — in particular whenever
the truncation bound is actually met; every character of the output is
printable and valid, the placeholder name is a fixed point, and a result
within the length limit is left unchanged by a second pass. -/
theorem sanitize_filename_idempotent_bounded (s : String)
    (h : (sanitizeFilename s).length ≤ 255) :
    sanitizeFilename (sanitizeFilename s) = sanitizeFilename s :=
  sanitizeFilename_fixed (sanitizeFilename s)
    (sanitizeFilename_ne_empty s)
    (sanitizeFilename_chars_clean s)
    (stripIsEmpty_sanitizeFilename s)
    h

/-- C10 witness: the amended idempotence theorem applied at a concrete
input, with the length hypothesis discharged. -/
theorem sanitize_filename_idempotent_bounded_witness :
    (sanitizeFilename ("report v1.pdf")).length ≤ 255 ∧
      sanitizeFilename (sanitizeFilename ("report v1.pdf")) =
        sanitizeFilename ("report v1.pdf") :=
  ⟨by decide, sanitize_filename_idempotent_bounded ("report v1.pdf") (by decide)⟩

/-! ### Pagination loop of `_backup_content_type` -/

/-- Result of one `endpoint_client.list(**params)` call, covering the
success case and the exception classes handled by the pagination loop
(`WPAPIRateLimitError`, `WPAPINotFoundError`, `WPAPIPermissionError`, and
the generic `WPAPIError`).  Records are represented by their identifiers. -/
inductive ListResult where
  | ok (batch : List Nat)
  | rateLimited
  | notFound
  | permissionDenied
  | apiError (msg : String)
deriving DecidableEq

/-- Trace entry for one iteration of the pagination loop: the request
parameters sent (`page`, `per_page`, and the optional `status` filter), the
response received, the value of `retry_count` after the iteration's
bookkeeping, and the backoff sleep performed by the iteration, if any. -/
structure Attempt where
  page : Nat
  perPage : Nat
  status : Option String
  result : ListResult
  retryAfter : Nat
  sleepSec : Option Nat
deriving DecidableEq

/-- Output of the pagination loop: the iteration trace, the per-page files
written (`page_<n>.json` with their record lists), the accumulated items,
and the final value of the `page` counter. -/
structure LoopOut where
  attempts : List Attempt
  pageFiles : List (Nat × List Nat)
  items : List Nat
  finalPage : Nat
deriving DecidableEq

/-- Test that a string starts with the given characters, by code points. -/
def strStartsWith (s p : String) : Bool :=
  p.data.isPrefixOf s.data

/-- Status filter of the request parameters: the source forces
`status=publish` for posts, pages and custom post types when the backup is
not authenticated. -/
def statusParam (typeName : String) (isAuthenticated : Bool) : Option String :=
  if (typeName = ("posts") ∨ typeName = ("pages") ∨ strStartsWith typeName ("cpt_")) ∧
      isAuthenticated = false
  then some ("publish") else none

/-- Embedding of the `while total_items < self.max_items_per_type` loop of
`_backup_content_type`.  The remote endpoint is modelled as a script of
responses consumed one per iteration; an exhausted script ends the run (as
an empty page would).  On success the batch is appended and saved, the
retry counter resets, and a short batch ends the loop; rate limiting and
generic API errors increment the retry counter, abandon the collection
once it exceeds `max_retries`, and otherwise sleep
`min(2**(retry_count - 1), cap)` — cap 60 for rate limits, 30 for generic
errors — and retry the same page; not-found and permission errors stop
immediately. -/
def collectLoop (st : Option String) (maxItems perPage maxRetries : Nat) :
    List ListResult → Nat → Nat → Nat → LoopOut
  | [], page, _total, _retry => ⟨[], [], [], page⟩
  | r :: rest, page, total, retry =>
    if total < maxItems then
      match r with
      | ListResult.ok batch =>
        if batch.isEmpty then
          ⟨[⟨page, perPage, st, ListResult.ok batch, retry, none⟩], [], [], page⟩
        else if batch.length < perPage then
          ⟨[⟨page, perPage, st, ListResult.ok batch, 0, none⟩], [(page, batch)], batch, page⟩
        else
          ⟨⟨page, perPage, st, ListResult.ok batch, 0, none⟩ ::
             (collectLoop st maxItems perPage maxRetries rest (page + 1)
               (total + batch.length) 0).attempts,
           (page, batch) ::
             (collectLoop st maxItems perPage maxRetries rest (page + 1)
               (total + batch.length) 0).pageFiles,
           batch ++ (collectLoop st maxItems perPage maxRetries rest (page + 1)
               (total + batch.length) 0).items,
           (collectLoop st maxItems perPage maxRetries rest (page + 1)
               (total + batch.length) 0).finalPage⟩
      | ListResult.rateLimited =>
        if maxRetries < retry + 1 then
          ⟨[⟨page, perPage, st, ListResult.rateLimited, retry + 1, none⟩], [], [], page⟩
        else
          ⟨⟨page, perPage, st, ListResult.rateLimited, retry + 1,
              some (min (2 ^ (retry + 1 - 1)) 60)⟩ ::
             (collectLoop st maxItems perPage maxRetries rest page total (retry + 1)).attempts,
           (collectLoop st maxItems perPage maxRetries rest page total (retry + 1)).pageFiles,
           (collectLoop st maxItems perPage maxRetries rest page total (retry + 1)).items,
           (collectLoop st maxItems perPage maxRetries rest page total (retry + 1)).finalPage⟩
      | ListResult.notFound =>
        ⟨[⟨page, perPage, st, ListResult.notFound, retry, none⟩], [], [], page⟩
      | ListResult.permissionDenied =>
        ⟨[⟨page, perPage, st, ListResult.permissionDenied, retry, none⟩], [], [], page⟩
      | ListResult.apiError m =>
        if maxRetries < retry + 1 then
          ⟨[⟨page, perPage, st, ListResult.apiError m, retry + 1, none⟩], [], [], page⟩
        else
          ⟨⟨page, perPage, st, ListResult.apiError m, retry + 1,
              some (min (2 ^ (retry + 1 - 1)) 30)⟩ ::
             (collectLoop st maxItems perPage maxRetries rest page total (retry + 1)).attempts,
           (collectLoop st maxItems perPage maxRetries rest page total (retry + 1)).pageFiles,
           (collectLoop st maxItems perPage maxRetries rest page total (retry + 1)).items,
           (collectLoop st maxItems perPage maxRetries rest page total (retry + 1)).finalPage⟩
    else ⟨[], [], [], page⟩

/-- Entry recorded in `backup_info['stats']` for one content type: either
the count and page number, or an error string. -/
inductive StatsEntry where
  | ok (count : Nat) (pages : Nat)
  | err (msg : String)
deriving DecidableEq

/-- True exactly on the error form of a stats entry. -/
def StatsEntry.isErr : StatsEntry → Bool
  | StatsEntry.ok _ _ => false
  | StatsEntry.err _ => true

/-- Outcome of one `_backup_content_type` pass: the iteration trace, the
per-page files, the optional aggregate file `all.json`, the returned item
list, and the stats entry written to the manifest. -/
structure CollectRun where
  attempts : List Attempt
  pageFiles : List (Nat × List Nat)
  allFile : Option (List Nat)
  items : List Nat
  stats : StatsEntry
deriving DecidableEq

/-- Embedding of `_backup_content_type` for one content type: build the
status filter, run the pagination loop with `per_page = 100` and
`max_retries = 5` starting from page 1, write `all.json` when any item was
retrieved, and record `{'count': len(items), 'pages': page}` in the stats
(the loop itself never stores an error entry; exceptions that escape it
are handled by the callers modelled separately). -/
def backupContentType (typeName : String) (isAuthenticated : Bool) (maxItems : Nat)
    (script : List ListResult) : CollectRun :=
  ⟨(collectLoop (statusParam typeName isAuthenticated) maxItems 100 5 script 1 0 0).attempts,
   (collectLoop (statusParam typeName isAuthenticated) maxItems 100 5 script 1 0 0).pageFiles,
   if (collectLoop (statusParam typeName isAuthenticated) maxItems 100 5 script 1 0 0).items.isEmpty
     then none
     else some (collectLoop (statusParam typeName isAuthenticated) maxItems 100 5 script 1 0 0).items,
   (collectLoop (statusParam typeName isAuthenticated) maxItems 100 5 script 1 0 0).items,
   StatsEntry.ok
     (collectLoop (statusParam typeName isAuthenticated) maxItems 100 5 script 1 0 0).items.length
     (collectLoop (statusParam typeName isAuthenticated) maxItems 100 5 script 1 0 0).finalPage⟩

/-! ### Lemmas about the pagination loop -/

theorem collectLoop_status (st : Option String) (mi pp mr : Nat) :
    ∀ (script : List ListResult) (page total retry : Nat),
      ∀ a ∈ (collectLoop st mi pp mr script page total retry).attempts, a.status = st := by
  intro script
  induction script with
  | nil => intro page total retry a ha; simp [collectLoop] at ha
  | cons r rest ih =>
    intro page total retry a ha
    cases r with
    | ok batch =>
      simp only [collectLoop] at ha
      split at ha
      · split at ha
        · simp only [List.mem_singleton] at ha
          subst ha; rfl
        · split at ha
          · simp only [List.mem_singleton] at ha
            subst ha; rfl
          · simp only [List.mem_cons] at ha
            rcases ha with h | h
            · subst h; rfl
            · exact ih _ _ _ a h
      · simp at ha
    | rateLimited =>
      simp only [collectLoop] at ha
      split at ha
      · split at ha
        · simp only [List.mem_singleton] at ha
          subst ha; rfl
        · simp only [List.mem_cons] at ha
          rcases ha with h | h
          · subst h; rfl
          · exact ih _ _ _ a h
      · simp at ha
    | notFound =>
      simp only [collectLoop] at ha
      split at ha
      · simp only [List.mem_singleton] at ha
        subst ha; rfl
      · simp at ha
    | permissionDenied =>
      simp only [collectLoop] at ha
      split at ha
      · simp only [List.mem_singleton] at ha
        subst ha; rfl
      · simp at ha
    | apiError m =>
      simp only [collectLoop] at ha
      split at ha
      · split at ha
        · simp only [List.mem_singleton] at ha
          subst ha; rfl
        · simp only [List.mem_cons] at ha
          rcases ha with h | h
          · subst h; rfl
          · exact ih _ _ _ a h
      · simp at ha

theorem collectLoop_sleep (st : Option String) (mi pp mr : Nat) :
    ∀ (script : List ListResult) (page total retry : Nat),
      ∀ a ∈ (collectLoop st mi pp mr script page total retry).attempts,
        (a.result = ListResult.rateLimited → a.retryAfter ≤ mr →
          a.sleepSec = some (min (2 ^ (a.retryAfter - 1)) 60)) ∧
        (∀ m, a.result = ListResult.apiError m → a.retryAfter ≤ mr →
          a.sleepSec = some (min (2 ^ (a.retryAfter - 1)) 30)) := by
  intro script
  induction script with
  | nil => intro page total retry a ha; simp [collectLoop] at ha
  | cons r rest ih =>
    intro page total retry a ha
    cases r with
    | ok batch =>
      simp only [collectLoop] at ha
      split at ha
      · split at ha
        · simp only [List.mem_singleton] at ha
          subst ha
          exact ⟨fun hres _ => by simp at hres, fun m hres _ => by simp at hres⟩
        · split at ha
          · simp only [List.mem_singleton] at ha
            subst ha
            exact ⟨fun hres _ => by simp at hres, fun m hres _ => by simp at hres⟩
          · simp only [List.mem_cons] at ha
            rcases ha with h | h
            · subst h
              exact ⟨fun hres _ => by simp at hres, fun m hres _ => by simp at hres⟩
            · exact ih _ _ _ a h
      · simp at ha
    | rateLimited =>
      simp only [collectLoop] at ha
      split at ha
      · rename_i hcond
        split at ha
        · rename_i habandon
          simp only [List.mem_singleton] at ha
          subst ha
          constructor
          · intro _ hle
            exact absurd hle (by simpa using habandon)
          · intro m hres _
            simp at hres
        · simp only [List.mem_cons] at ha
          rcases ha with h | h
          · subst h
            exact ⟨fun _ _ => rfl, fun m hres _ => by simp at hres⟩
          · exact ih _ _ _ a h
      · simp at ha
    | notFound =>
      simp only [collectLoop] at ha
      split at ha
      · simp only [List.mem_singleton] at ha
        subst ha
        exact ⟨fun hres _ => by simp at hres, fun m hres _ => by simp at hres⟩
      · simp at ha
    | permissionDenied =>
      simp only [collectLoop] at ha
      split at ha
      · simp only [List.mem_singleton] at ha
        subst ha
        exact ⟨fun hres _ => by simp at hres, fun m hres _ => by simp at hres⟩
      · simp at ha
    | apiError m0 =>
      simp only [collectLoop] at ha
      split at ha
      · rename_i hcond
        split at ha
        · rename_i habandon
          simp only [List.mem_singleton] at ha
          subst ha
          constructor
          · intro hres _
            simp at hres
          · intro m _ hle
            exact absurd hle (by simpa using habandon)
        · simp only [List.mem_cons] at ha
          rcases ha with h | h
          · subst h
            exact ⟨fun hres _ => by simp at hres, fun m _ _ => rfl⟩
          · exact ih _ _ _ a h
      · simp at ha

theorem collectLoop_reset (st : Option String) (mi pp mr : Nat) :
    ∀ (script : List ListResult) (page total retry : Nat),
      ∀ a ∈ (collectLoop st mi pp mr script page total retry).attempts,
        ∀ batch, a.result = ListResult.ok batch → batch ≠ [] → a.retryAfter = 0 := by
  intro script
  induction script with
  | nil => intro page total retry a ha; simp [collectLoop] at ha
  | cons r rest ih =>
    intro page total retry a ha
    cases r with
    | ok batch =>
      simp only [collectLoop] at ha
      split at ha
      · split at ha
        · rename_i hempty
          simp only [List.mem_singleton] at ha
          subst ha
          intro batch' hres hne
          injection hres with hres
          subst hres
          exact absurd (List.isEmpty_iff.1 hempty) hne
        · split at ha
          · simp only [List.mem_singleton] at ha
            subst ha
            intro batch' _ _
            rfl
          · simp only [List.mem_cons] at ha
            rcases ha with h | h
            · subst h
              intro batch' _ _
              rfl
            · exact ih _ _ _ a h
      · simp at ha
    | rateLimited =>
      simp only [collectLoop] at ha
      split at ha
      · split at ha
        · simp only [List.mem_singleton] at ha
          subst ha
          intro batch' hres _
          simp at hres
        · simp only [List.mem_cons] at ha
          rcases ha with h | h
          · subst h
            intro batch' hres _
            simp at hres
          · exact ih _ _ _ a h
      · simp at ha
    | notFound =>
      simp only [collectLoop] at ha
      split at ha
      · simp only [List.mem_singleton] at ha
        subst ha
        intro batch' hres _
        simp at hres
      · simp at ha
    | permissionDenied =>
      simp only [collectLoop] at ha
      split at ha
      · simp only [List.mem_singleton] at ha
        subst ha
        intro batch' hres _
        simp at hres
      · simp at ha
    | apiError m =>
      simp only [collectLoop] at ha
      split at ha
      · split at ha
        · simp only [List.mem_singleton] at ha
          subst ha
          intro batch' hres _
          simp at hres
        · simp only [List.mem_cons] at ha
          rcases ha with h | h
          · subst h
            intro batch' hres _
            simp at hres
          · exact ih _ _ _ a h
      · simp at ha

theorem collectLoop_head_page (st : Option String) (mi pp mr : Nat)
    (script : List ListResult) (page total retry : Nat) (a : Attempt)
    (h : (collectLoop st mi pp mr script page total retry).attempts.head? = some a) :
    a.page = page := by
  cases script with
  | nil => simp [collectLoop] at h
  | cons r rest =>
    cases r with
    | ok batch =>
      simp only [collectLoop] at h
      split at h
      · split at h
        · simp only [List.head?_cons] at h
          cases h; rfl
        · split at h
          · simp only [List.head?_cons] at h
            cases h; rfl
          · simp only [List.head?_cons] at h
            cases h; rfl
      · simp at h
    | rateLimited =>
      simp only [collectLoop] at h
      split at h
      · split at h
        · simp only [List.head?_cons] at h
          cases h; rfl
        · simp only [List.head?_cons] at h
          cases h; rfl
      · simp at h
    | notFound =>
      simp only [collectLoop] at h
      split at h
      · simp only [List.head?_cons] at h
        cases h; rfl
      · simp at h
    | permissionDenied =>
      simp only [collectLoop] at h
      split at h
      · simp only [List.head?_cons] at h
        cases h; rfl
      · simp at h
    | apiError m =>
      simp only [collectLoop] at h
      split at h
      · split at h
        · simp only [List.head?_cons] at h
          cases h; rfl
        · simp only [List.head?_cons] at h
          cases h; rfl
      · simp at h

theorem collectLoop_chain (st : Option String) (mi pp mr : Nat) :
    ∀ (script : List ListResult) (page total retry : Nat),
      List.Chain' (fun a b =>
          (a.result = ListResult.rateLimited ∨ ∃ m, a.result = ListResult.apiError m) →
            b.page = a.page)
        (collectLoop st mi pp mr script page total retry).attempts := by
  intro script
  induction script with
  | nil =>
    intro page total retry
    simp only [collectLoop]
    exact List.chain'_nil
  | cons r rest ih =>
    intro page total retry
    cases r with
    | ok batch =>
      simp only [collectLoop]
      split
      · split
        · exact List.chain'_singleton _
        · split
          · exact List.chain'_singleton _
          · rw [List.chain'_cons']
            refine ⟨?_, ih _ _ _⟩
            intro y _ hres
            rcases hres with h | ⟨m, h⟩ <;> simp at h
      · exact List.chain'_nil
    | rateLimited =>
      simp only [collectLoop]
      split
      · split
        · exact List.chain'_singleton _
        · rw [List.chain'_cons']
          refine ⟨?_, ih _ _ _⟩
          intro y hy _
          exact collectLoop_head_page st mi pp mr rest page total (retry + 1) y
            (Option.mem_def.1 hy)
      · exact List.chain'_nil
    | notFound =>
      simp only [collectLoop]
      split
      · exact List.chain'_singleton _
      · exact List.chain'_nil
    | permissionDenied =>
      simp only [collectLoop]
      split
      · exact List.chain'_singleton _
      · exact List.chain'_nil
    | apiError m =>
      simp only [collectLoop]
      split
      · split
        · exact List.chain'_singleton _
        · rw [List.chain'_cons']
          refine ⟨?_, ih _ _ _⟩
          intro y hy _
          exact collectLoop_head_page st mi pp mr rest page total (retry + 1) y
            (Option.mem_def.1 hy)
      · exact List.chain'_nil

theorem collectLoop_items_count (st : Option String) (mi pp mr : Nat) :
    ∀ (script : List ListResult) (page total retry : Nat),
      (collectLoop st mi pp mr script page total retry).items.length =
        (((collectLoop st mi pp mr script page total retry).pageFiles).map
          (fun pf => pf.2.length)).sum := by
  intro script
  induction script with
  | nil => intro page total retry; simp [collectLoop]
  | cons r rest ih =>
    intro page total retry
    cases r with
    | ok batch =>
      simp only [collectLoop]
      split
      · split
        · simp
        · split
          · simp
          · show (batch ++ _).length = _
            simp only [List.length_append, List.map_cons, List.sum_cons]
            rw [ih]
      · simp
    | rateLimited =>
      simp only [collectLoop]
      split
      · split
        · simp
        · exact ih _ _ _
      · simp
    | notFound =>
      simp only [collectLoop]
      split <;> simp
    | permissionDenied =>
      simp only [collectLoop]
      split <;> simp
    | apiError m =>
      simp only [collectLoop]
      split
      · split
        · simp
        · exact ih _ _ _
      · simp

/-! ### Claims C1 to C4: the pagination loop -/

/-- C1: for every pagination run over posts, pages, or a collection whose
name starts with the custom-post-type marker, if the backup is
unauthenticated then every list call issued by the loop carries the
`status=publish` filter; no list call for these collections is made
without it in unauthenticated mode. -/
theorem unauthenticated_list_calls_publish (typeName : String) (maxItems : Nat)
    (script : List ListResult)
    (htype : typeName = ("posts") ∨ typeName = ("pages") ∨
      strStartsWith typeName ("cpt_") = true) :
    ∀ a ∈ (backupContentType typeName false maxItems script).attempts,
      a.status = some ("publish") := by
  intro a ha
  have hst := collectLoop_status (statusParam typeName false) maxItems 100 5 script 1 0 0 a ha
  rw [hst]
  unfold statusParam
  rw [if_pos ⟨htype, rfl⟩]

/-- C1 witness: the theorem applied to the posts collection with a
one-response script; the sole list call of the loop carries the filter. -/
theorem unauthenticated_list_calls_publish_witness :
    ((⟨1, 100, some ("publish"), ListResult.ok [], 0, none⟩ : Attempt) ∈
        (backupContentType ("posts") false 1000 [ListResult.ok []]).attempts) ∧
      (⟨1, 100, some ("publish"), ListResult.ok [], 0, none⟩ : Attempt).status =
        some ("publish") :=
  ⟨by decide,
   unauthenticated_list_calls_publish ("posts") 1000 [ListResult.ok []] (Or.inl rfl)
     ⟨1, 100, some ("publish"), ListResult.ok [], 0, none⟩ (by decide)⟩

/-- C2: on every rate-limited attempt retried by the loop, the sleep before
retry number r is exactly min(2^(r-1), 60) seconds — so retries 1 through 5
sleep 1, 2, 4, 8, 16 seconds, as the concrete trace shows — the page number
is not advanced across a rate-limit retry, and a successful page resets the
retry counter to 0. -/
theorem rate_limit_backoff (typeName : String) (isAuthenticated : Bool) (maxItems : Nat)
    (script : List ListResult) :
    (∀ a ∈ (backupContentType typeName isAuthenticated maxItems script).attempts,
        a.result = ListResult.rateLimited → a.retryAfter ≤ 5 →
          a.sleepSec = some (min (2 ^ (a.retryAfter - 1)) 60))
    ∧ List.Chain' (fun a b => a.result = ListResult.rateLimited → b.page = a.page)
        (backupContentType typeName isAuthenticated maxItems script).attempts
    ∧ (∀ a ∈ (backupContentType typeName isAuthenticated maxItems script).attempts,
        ∀ batch, a.result = ListResult.ok batch → batch ≠ [] → a.retryAfter = 0)
    ∧ ((backupContentType ("posts") true 1000
          (List.replicate 5 ListResult.rateLimited ++ [ListResult.ok [7]])).attempts.map
        (fun a => (a.page, a.retryAfter, a.sleepSec)) =
        [(1, 1, some 1), (1, 2, some 2), (1, 3, some 4), (1, 4, some 8), (1, 5, some 16),
         (1, 0, none)]) := by
  refine ⟨?_, ?_, ?_, by decide⟩
  · intro a ha hres hle
    exact (collectLoop_sleep _ maxItems 100 5 script 1 0 0 a ha).1 hres hle
  · exact List.Chain'.imp (fun a b h hres => h (Or.inl hres))
      (collectLoop_chain _ maxItems 100 5 script 1 0 0)
  · exact collectLoop_reset _ maxItems 100 5 script 1 0 0

/-- C2 witness: the backoff formula applied to the first rate-limited
attempt of a concrete run. -/
theorem rate_limit_backoff_witness :
    ((⟨1, 100, none, ListResult.rateLimited, 1, some 1⟩ : Attempt) ∈
        (backupContentType ("posts") true 10 [ListResult.rateLimited]).attempts) ∧
      (⟨1, 100, none, ListResult.rateLimited, 1, some 1⟩ : Attempt).sleepSec =
        some (min (2 ^ ((1 : Nat) - 1)) 60) :=
  ⟨by decide,
   (rate_limit_backoff ("posts") true 10 [ListResult.rateLimited]).1
     ⟨1, 100, none, ListResult.rateLimited, 1, some 1⟩ (by decide) (by decide) (by decide)⟩

/-- C3 counterexample: after six consecutive generic API errors the
collection is abandoned (the retry counter reaches 6, exceeding the five
allowed retries, and no further page is requested), but the stats entry
recorded for the collection is the ordinary count-and-pages entry — no
error is recorded in the collection's result, contrary to the claim. -/
theorem generic_error_no_error_recorded :
    ((backupContentType ("posts") true 1000
        (List.replicate 6 (ListResult.apiError ("boom")) ++ [ListResult.ok [1, 2, 3]])).attempts.map
      (fun a => (a.retryAfter, a.sleepSec)) =
      [(1, some 1), (2, some 2), (3, some 4), (4, some 8), (5, some 16), (6, none)])
    ∧ (backupContentType ("posts") true 1000
        (List.replicate 6 (ListResult.apiError ("boom")) ++
          [ListResult.ok [1, 2, 3]])).stats.isErr = false := by
  constructor
  · decide
  · decide

/-- C3 (amended): on every generic API error retried by the loop, the sleep
before retry number r is exactly min(2^(r-1), 30) seconds (sequence
1, 2, 4, 8, 16), the same page is retried, and once the retry count exceeds
maxRetries = 5 the collection stops — the abandonment is logged but only
the ordinary count-and-pages entry is recorded in the collection's stats,
never an error entry — while all items fetched before abandonment are
retained in the returned items and in the aggregate file. -/
theorem generic_error_backoff (typeName : String) (isAuthenticated : Bool) (maxItems : Nat)
    (script : List ListResult) :
    (∀ a ∈ (backupContentType typeName isAuthenticated maxItems script).attempts,
        ∀ m, a.result = ListResult.apiError m → a.retryAfter ≤ 5 →
          a.sleepSec = some (min (2 ^ (a.retryAfter - 1)) 30))
    ∧ List.Chain' (fun a b => (∃ m, a.result = ListResult.apiError m) → b.page = a.page)
        (backupContentType typeName isAuthenticated maxItems script).attempts
    ∧ (backupContentType typeName isAuthenticated maxItems script).stats.isErr = false
    ∧ ((backupContentType typeName isAuthenticated maxItems script).items ≠ [] →
        (backupContentType typeName isAuthenticated maxItems script).allFile =
          some (backupContentType typeName isAuthenticated maxItems script).items)
    ∧ ((backupContentType ("pages") true 1000
          ([ListResult.ok (List.range 100)] ++ List.replicate 6 (ListResult.apiError ("e")) ++
            [ListResult.ok [5]])).items = List.range 100
        ∧ (backupContentType ("pages") true 1000
            ([ListResult.ok (List.range 100)] ++ List.replicate 6 (ListResult.apiError ("e")) ++
              [ListResult.ok [5]])).allFile = some (List.range 100)
        ∧ (backupContentType ("pages") true 1000
            ([ListResult.ok (List.range 100)] ++ List.replicate 6 (ListResult.apiError ("e")) ++
              [ListResult.ok [5]])).attempts.length = 7) := by
  refine ⟨?_, ?_, rfl, ?_, by decide, by decide, by decide⟩
  · intro a ha m hres hle
    exact (collectLoop_sleep _ maxItems 100 5 script 1 0 0 a ha).2 m hres hle
  · exact List.Chain'.imp (fun a b h hres => h (Or.inr hres))
      (collectLoop_chain _ maxItems 100 5 script 1 0 0)
  · intro hne
    show (if (collectLoop _ maxItems 100 5 script 1 0 0).items.isEmpty then none
        else some (collectLoop _ maxItems 100 5 script 1 0 0).items) = _
    rw [if_neg]
    · rfl
    · rw [Bool.not_eq_true, List.isEmpty_eq_false]
      exact hne

/-- C3 witness: the backoff formula applied to the first generic-error
attempt of a concrete run, and the retention conjunct at a run with one
page fetched before the errors begin. -/
theorem generic_error_backoff_witness :
    ((⟨1, 100, none, ListResult.apiError ("x"), 1, some 1⟩ : Attempt) ∈
        (backupContentType ("posts") true 10 [ListResult.apiError ("x")]).attempts) ∧
      (⟨1, 100, none, ListResult.apiError ("x"), 1, some 1⟩ : Attempt).sleepSec =
        some (min (2 ^ ((1 : Nat) - 1)) 30) :=
  ⟨by decide,
   (generic_error_backoff ("posts") true 10 [ListResult.apiError ("x")]).1
     ⟨1, 100, none, ListResult.apiError ("x"), 1, some 1⟩ (by decide) ("x") (by decide)
     (by decide)⟩

/-- C4: for every collection pass that persists at least one page (the
aggregate file was written), the number of records in the aggregate file
equals the sum of the record counts of the per-page files written during
the pass. -/
theorem aggregate_count_eq_sum_pages (typeName : String) (isAuthenticated : Bool)
    (maxItems : Nat) (script : List ListResult) (l : List Nat)
    (h : (backupContentType typeName isAuthenticated maxItems script).allFile = some l) :
    l.length = (((backupContentType typeName isAuthenticated maxItems script).pageFiles).map
      (fun pf => pf.2.length)).sum := by
  have hl : l = (collectLoop (statusParam typeName isAuthenticated) maxItems 100 5
      script 1 0 0).items := by
    have h' : (if (collectLoop (statusParam typeName isAuthenticated) maxItems 100 5
          script 1 0 0).items.isEmpty then none
        else some (collectLoop (statusParam typeName isAuthenticated) maxItems 100 5
          script 1 0 0).items) = some l := h
    split at h'
    · exact Option.noConfusion h'
    · exact (Option.some.inj h').symm
  rw [hl]
  exact collectLoop_items_count _ maxItems 100 5 script 1 0 0

/-- C4 witness: the theorem applied to a run that persists two pages, with
the aggregate-file hypothesis discharged. -/
theorem aggregate_count_eq_sum_pages_witness :
    (backupContentType ("tags") true 1000
        [ListResult.ok (List.range 100), ListResult.ok [7, 8]]).allFile =
      some (List.range 100 ++ [7, 8]) ∧
    (List.range 100 ++ [7, 8]).length =
      (((backupContentType ("tags") true 1000
          [ListResult.ok (List.range 100), ListResult.ok [7, 8]]).pageFiles).map
        (fun pf => pf.2.length)).sum :=
  ⟨by decide,
   aggregate_count_eq_sum_pages ("tags") true 1000
     [ListResult.ok (List.range 100), ListResult.ok [7, 8]]
     (List.range 100 ++ [7, 8]) (by decide)⟩

/-! ### Media download (`_download_media_file`) -/

/-- Lowercasing used by `mime_type.lower()`; ASCII case folding. -/
def asciiLower (s : String) : String :=
  ⟨s.data.map Char.toLower⟩

/-- Embedding of `_guess_extension_from_mime` with its full lookup table;
an empty or unknown MIME type yields the bin extension. -/
def guessExtensionFromMime (mime : String) : String :=
  if mime = ("") then (".bin")
  else
    if asciiLower mime = ("image/jpeg") then (".jpg")
    else if asciiLower mime = ("image/png") then (".png")
    else if asciiLower mime = ("image/gif") then (".gif")
    else if asciiLower mime = ("image/webp") then (".webp")
    else if asciiLower mime = ("image/svg+xml") then (".svg")
    else if asciiLower mime = ("image/bmp") then (".bmp")
    else if asciiLower mime = ("image/tiff") then (".tiff")
    else if asciiLower mime = ("application/pdf") then (".pdf")
    else if asciiLower mime = ("video/mp4") then (".mp4")
    else if asciiLower mime = ("video/quicktime") then (".mov")
    else if asciiLower mime = ("video/x-msvideo") then (".avi")
    else if asciiLower mime = ("video/x-ms-wmv") then (".wmv")
    else if asciiLower mime = ("audio/mpeg") then (".mp3")
    else if asciiLower mime = ("audio/wav") then (".wav")
    else if asciiLower mime = ("audio/ogg") then (".ogg")
    else if asciiLower mime = ("audio/midi") then (".midi")
    else if asciiLower mime = ("application/zip") then (".zip")
    else if asciiLower mime = ("application/x-rar-compressed") then (".rar")
    else if asciiLower mime = ("application/x-tar") then (".tar")
    else if asciiLower mime = ("application/x-gzip") then (".gz")
    else if asciiLower mime = ("application/msword") then (".doc")
    else if asciiLower mime =
        ("application/vnd.openxmlformats-officedocument.wordprocessingml.document")
      then (".docx")
    else if asciiLower mime = ("application/vnd.ms-excel") then (".xls")
    else if asciiLower mime =
        ("application/vnd.openxmlformats-officedocument.spreadsheetml.sheet")
      then (".xlsx")
    else if asciiLower mime = ("application/vnd.ms-powerpoint") then (".ppt")
    else if asciiLower mime =
        ("application/vnd.openxmlformats-officedocument.presentationml.presentation")
      then (".pptx")
    else if asciiLower mime = ("text/plain") then (".txt")
    else if asciiLower mime = ("text/html") then (".html")
    else if asciiLower mime = ("text/css") then (".css")
    else if asciiLower mime = ("text/javascript") then (".js")
    else if asciiLower mime = ("application/json") then (".json")
    else if asciiLower mime = ("application/xml") then (".xml")
    else (".bin")

/-- Model of `os.path.basename` (POSIX flavour): the part after the final
slash. -/
def pyBasename (p : String) : String :=
  ⟨(p.data.reverse.takeWhile (fun c => c != '/')).reverse⟩

/-- Characters that follow a scheme separator, when the input contains
one. -/
def findSchemeSep : List Char → Option (List Char)
  | [] => none
  | ':' :: '/' :: '/' :: rest => some rest
  | _ :: rest => findSchemeSep rest

/-- Model of the path component of `urllib.parse.urlparse`: the fragment
and query are cut off, then the scheme and network location (everything up
to the first slash after the scheme separator) are removed. -/
def urlPath (url : String) : String :=
  match findSchemeSep (((url.data.takeWhile (fun c => c != '#'))).takeWhile
      (fun c => c != '?')) with
  | none => ⟨((url.data.takeWhile (fun c => c != '#'))).takeWhile (fun c => c != '?')⟩
  | some afterScheme => ⟨afterScheme.dropWhile (fun c => c != '/')⟩

/-- Numeric value of an ASCII digit character. -/
def digitVal (c : Char) : Nat :=
  c.toNat - 48

/-- Modelled from the spec and the source's `datetime.fromisoformat` call:
parsing of the leading `YYYY-MM-DD` of an ISO-8601 date, returning year and
month.  The source's timezone normalization (trailing `Z`, missing offset)
only touches the suffix and cannot change the year or month; a string not
of this shape makes `fromisoformat` raise, which the source answers by
using no subfolder, modelled by `none`. -/
def parseYearMonth (s : String) : Option (Nat × Nat) :=
  match s.data with
  | y1 :: y2 :: y3 :: y4 :: '-' :: m1 :: m2 :: '-' :: d1 :: d2 :: _ =>
    if y1.isDigit && y2.isDigit && y3.isDigit && y4.isDigit && m1.isDigit && m2.isDigit &&
        d1.isDigit && d2.isDigit then
      if decide (1 ≤ digitVal m1 * 10 + digitVal m2) &&
          decide (digitVal m1 * 10 + digitVal m2 ≤ 12) &&
          decide (1 ≤ digitVal d1 * 10 + digitVal d2) &&
          decide (digitVal d1 * 10 + digitVal d2 ≤ 31) then
        some (digitVal y1 * 1000 + digitVal y2 * 100 + digitVal y3 * 10 + digitVal y4,
          digitVal m1 * 10 + digitVal m2)
      else none
    else none
  | _ => none

/-- Zero-padded month, as in the source's format string `{date.month:02d}`. -/
def pad2 (n : Nat) : String :=
  if n < 10 then ("0") ++ Nat.repr n else Nat.repr n

/-- Media record as used by `_download_media_file`: the identifier plus the
optional fields the function reads.  An absent key of the Python dict is
`none`. -/
structure MediaItem where
  id : Nat
  source_url : Option String
  file : Option String
  filesize : Option Nat
  mime_type : Option String
  date : Option String
deriving DecidableEq

/-- Filename resolution of `_download_media_file`: prefer the basename of
the `file` field, else the basename of the URL path with any query cut
off, else the identifier with an extension guessed from the MIME type
(empty strings count as missing, as Python truthiness does). -/
def mediaResolvedFilename (item : MediaItem) : String :=
  if (match item.file with
      | some f => pyBasename f
      | none => ("")) = ("") then
    if (match item.source_url with
        | some url => pyBasename ⟨(urlPath url).data.takeWhile (fun c => c != '?')⟩
        | none => ("")) = ("") then
      Nat.repr item.id ++ guessExtensionFromMime (item.mime_type.getD (""))
    else
      (match item.source_url with
       | some url => pyBasename ⟨(urlPath url).data.takeWhile (fun c => c != '?')⟩
       | none => (""))
  else
    (match item.file with
     | some f => pyBasename f
     | none => (""))

/-- Year-month subfolder of `_download_media_file`: derived from the `date`
field when present and parseable, empty otherwise. -/
def mediaSubfolder (item : MediaItem) : String :=
  match item.date with
  | none => ("")
  | some d =>
    match parseYearMonth d with
    | some ym => Nat.repr ym.1 ++ ("/") ++ pad2 ym.2
    | none => ("")

/-- Join of path segments, where an empty segment disappears, as with
`pathlib` division by an empty string. -/
def pathJoin (a b : String) : String :=
  if a = ("") then b else if b = ("") then a else a ++ ("/") ++ b

/-- Full target path of a media record:
`media_dir / subfolder / sanitized filename`. -/
def mediaTargetPath (item : MediaItem) (mediaDir : String) : String :=
  pathJoin (pathJoin mediaDir (mediaSubfolder item))
    (sanitizeFilename (mediaResolvedFilename item))

/-- Outcome of the HEAD probe: a reachable asset with its Content-Length
header value (0 when the header is absent, as `headers.get` defaults), or
a request failure. -/
inductive HeadResult where
  | ok (contentLength : Nat)
  | fail
deriving DecidableEq

/-- Outcome of the streaming GET: the number of bytes written, or a
request failure. -/
inductive GetResult where
  | ok (bytes : Nat)
  | fail (msg : String)
deriving DecidableEq

/-- Behaviour of the remote asset for one download attempt. -/
structure Remote where
  head : HeadResult
  get : GetResult
deriving DecidableEq

/-- Return value of `_download_media_file`:
`(success, bytes_downloaded, error_message)`. -/
structure DownloadOutcome where
  success : Bool
  bytesDownloaded : Nat
  error : String
deriving DecidableEq

/-- Point update of the modelled filesystem. -/
def fsUpdate (fs : String → Option Nat) (p : String) (n : Nat) :
    String → Option Nat :=
  fun q => if q = p then some n else fs q

/-- Metadata skip check of `_download_media_file`: the target exists and
its size equals the record's `filesize`. -/
def mediaMetaSkip (item : MediaItem) (fs : String → Option Nat) (path : String) : Bool :=
  match fs path, item.filesize with
  | some sz, some known => sz == known
  | _, _ => false

/-- HEAD-probe skip check of `_download_media_file`: the probe succeeded,
the target exists, its size equals the Content-Length, and the
Content-Length is positive. -/
def mediaHeadSkip (remote : Remote) (fs : String → Option Nat) (path : String) : Bool :=
  match remote.head with
  | HeadResult.ok cl =>
    match fs path with
    | some sz => sz == cl && decide (0 < cl)
    | none => false
  | HeadResult.fail => false

/-- Streaming GET stage of `_download_media_file`: write the body to the
target and count the bytes, or report the transport error leaving the
filesystem unchanged. -/
def performGet (g : GetResult) (fs : String → Option Nat) (path : String) :
    DownloadOutcome × (String → Option Nat) :=
  match g with
  | GetResult.ok n => (⟨true, n, ("")⟩, fsUpdate fs path n)
  | GetResult.fail m => (⟨false, 0, ("Download error: ") ++ m⟩, fs)

/-- Embedding of `_download_media_file` over an idealized filesystem (no
directory-creation failures): fail without a source URL (`if not
source_url` also treats an empty string as missing); skip when the
existing target matches the record's size or the probed remote size;
otherwise stream the body to the target. -/
def downloadMediaFile (item : MediaItem) (mediaDir : String) (remote : Remote)
    (fs : String → Option Nat) : DownloadOutcome × (String → Option Nat) :=
  if item.source_url.getD ("") = ("") then (⟨false, 0, ("No source URL found")⟩, fs)
  else if mediaMetaSkip item fs (mediaTargetPath item mediaDir) then
    (⟨true, 0, ("skipped")⟩, fs)
  else if mediaHeadSkip remote fs (mediaTargetPath item mediaDir) then
    (⟨true, 0, ("skipped")⟩, fs)
  else performGet remote.get fs (mediaTargetPath item mediaDir)

/-! ### Claim C5: idempotent skip of media downloads -/

theorem downloadMediaFile_skips (item : MediaItem) (mediaDir : String) (remote : Remote)
    (fs : String → Option Nat)
    (hurl : item.source_url.getD ("") ≠ (""))
    (h : mediaMetaSkip item fs (mediaTargetPath item mediaDir) = true ∨
      mediaHeadSkip remote fs (mediaTargetPath item mediaDir) = true) :
    downloadMediaFile item mediaDir remote fs = (⟨true, 0, ("skipped")⟩, fs) := by
  unfold downloadMediaFile
  rw [if_neg hurl]
  rcases h with h | h
  · rw [if_pos h]
  · by_cases hm : mediaMetaSkip item fs (mediaTargetPath item mediaDir) = true
    · rw [if_pos hm]
    · rw [if_neg hm, if_pos h]

/-- C5: for every media record whose target file already exists with a size
equal to the size known for the record — from the record's `filesize`
metadata, or from a positive Content-Length returned by the HEAD probe — a
download attempt against the populated destination yields the outcome
skipped with zero bytes transferred and an unchanged filesystem; and
running the per-item download twice under matching sizes (the GET delivers
exactly the known size) makes the second run a skip that changes nothing. -/
theorem media_download_skip_idempotent (item : MediaItem) (mediaDir : String)
    (remote : Remote) (fs : String → Option Nat) (u : String) (n : Nat)
    (hurl : item.source_url = some u) (hu : u ≠ (""))
    (hknown : item.filesize = some n ∨ (remote.head = HeadResult.ok n ∧ 0 < n)) :
    (fs (mediaTargetPath item mediaDir) = some n →
      downloadMediaFile item mediaDir remote fs = (⟨true, 0, ("skipped")⟩, fs))
    ∧ (remote.get = GetResult.ok n →
      downloadMediaFile item mediaDir remote
          (downloadMediaFile item mediaDir remote fs).2 =
        (⟨true, 0, ("skipped")⟩, (downloadMediaFile item mediaDir remote fs).2)) := by
  have hurl' : item.source_url.getD ("") ≠ ("") := by
    rw [hurl]
    simpa using hu
  have hskip : ∀ (g : String → Option Nat), g (mediaTargetPath item mediaDir) = some n →
      (mediaMetaSkip item g (mediaTargetPath item mediaDir) = true ∨
        mediaHeadSkip remote g (mediaTargetPath item mediaDir) = true) := by
    intro g hg
    rcases hknown with hk | ⟨hh, hn⟩
    · left
      unfold mediaMetaSkip
      rw [hg, hk]
      simp
    · right
      unfold mediaHeadSkip
      rw [hh, hg]
      simp [hn]
  constructor
  · intro hfs
    exact downloadMediaFile_skips item mediaDir remote fs hurl' (hskip fs hfs)
  · intro hget
    by_cases h1 : mediaMetaSkip item fs (mediaTargetPath item mediaDir) = true ∨
        mediaHeadSkip remote fs (mediaTargetPath item mediaDir) = true
    · have hr1 := downloadMediaFile_skips item mediaDir remote fs hurl' h1
      rw [hr1]
      exact downloadMediaFile_skips item mediaDir remote fs hurl' h1
    · obtain ⟨hm, hh⟩ := not_or.1 h1
      have hr1 : downloadMediaFile item mediaDir remote fs =
          (⟨true, n, ("")⟩, fsUpdate fs (mediaTargetPath item mediaDir) n) := by
        unfold downloadMediaFile
        rw [if_neg hurl', if_neg hm, if_neg hh, hget]
        rfl
      rw [hr1]
      apply downloadMediaFile_skips item mediaDir remote _ hurl'
      apply hskip
      show fsUpdate fs (mediaTargetPath item mediaDir) n (mediaTargetPath item mediaDir) =
        some n
      unfold fsUpdate
      simp

/-- C5 witness: the direct-skip conjunct applied to a concrete record whose
target file exists with the record's size; the outcome is skipped with
zero bytes and the filesystem is untouched. -/
theorem media_download_skip_idempotent_witness :
    ((fun q => if q = ("m/a.png") then some 5 else none)
        (mediaTargetPath ⟨1, some ("http://h/a.png"), none, some 5, none, none⟩ ("m")) =
      some 5) ∧
    downloadMediaFile ⟨1, some ("http://h/a.png"), none, some 5, none, none⟩ ("m")
        ⟨HeadResult.ok 5, GetResult.ok 5⟩
        (fun q => if q = ("m/a.png") then some 5 else none) =
      (⟨true, 0, ("skipped")⟩, (fun q => if q = ("m/a.png") then some 5 else none)) :=
  ⟨by decide,
   (media_download_skip_idempotent ⟨1, some ("http://h/a.png"), none, some 5, none, none⟩
      ("m") ⟨HeadResult.ok 5, GetResult.ok 5⟩
      (fun q => if q = ("m/a.png") then some 5 else none)
      ("http://h/a.png") 5 rfl (by decide) (Or.inl rfl)).1 (by decide)⟩

/-! ### Orchestrator (`run_backup`) -/

/-- Outcome of processing one configured collection in the loop of
`run_backup`: the backup method succeeded and recorded its count and page
number, or it raised one of the caught exception classes
(`WPAPIPermissionError`, `WPAPINotFoundError`, `WPAPIError`, any other
`Exception`), or no `_backup_<type>` method exists, or a
`KeyboardInterrupt` was raised (which the per-collection handlers do not
catch). -/
inductive ColOutcome where
  | ok (count : Nat) (pages : Nat)
  | permissionError (msg : String)
  | notFoundError (msg : String)
  | apiError (msg : String)
  | otherError (msg : String)
  | noMethod
  | interrupt
deriving DecidableEq

/-- Stats entry written to `backup_info['stats'][content_type]` for an
outcome, with the source's message prefixes; `none` when nothing is
written (missing method) or when the outcome is not caught (interrupt). -/
def recordCollection : ColOutcome → Option StatsEntry
  | ColOutcome.ok c p => some (StatsEntry.ok c p)
  | ColOutcome.permissionError m => some (StatsEntry.err (("Permission denied: ") ++ m))
  | ColOutcome.notFoundError m => some (StatsEntry.err (("Not found: ") ++ m))
  | ColOutcome.apiError m => some (StatsEntry.err m)
  | ColOutcome.otherError m => some (StatsEntry.err m)
  | ColOutcome.noMethod => none
  | ColOutcome.interrupt => none

/-- Manifest status values of `backup_info['status']`. -/
inductive RunStatus where
  | inProgress
  | completed
  | interrupted
  | failed
deriving DecidableEq

/-- Observable event of a `run_backup` execution: a `_save_backup_info`
write carrying the current status, or the attempt of one collection. -/
inductive OrchEvent where
  | save (st : RunStatus)
  | attempt (name : String)
deriving DecidableEq

/-- Status carried by a save event. -/
def statusOf : OrchEvent → Option RunStatus
  | OrchEvent.save s => some s
  | OrchEvent.attempt _ => none

/-- Embedding of the collection loop of `run_backup`: the synthetic
`custom_post_types` marker is skipped, every other configured collection is
attempted in order, caught outcomes are recorded into the stats map without
stopping the loop, and a `KeyboardInterrupt` stops the loop at once.
Returns the attempt events, the stats entries, and whether an interrupt
escaped. -/
def processCollections : List (String × ColOutcome) →
    List OrchEvent × List (String × StatsEntry) × Bool
  | [] => ([], [], false)
  | (name, oc) :: rest =>
    if name = ("custom_post_types") then processCollections rest
    else if oc = ColOutcome.interrupt then ([OrchEvent.attempt name], [], true)
    else
      (OrchEvent.attempt name :: (processCollections rest).1,
       (match recordCollection oc with
        | some e => (name, e) :: (processCollections rest).2.1
        | none => (processCollections rest).2.1),
       (processCollections rest).2.2)

/-- Outcome of one `run_backup` execution: the event trace, the recorded
stats, and the final manifest status. -/
structure OrchRun where
  events : List OrchEvent
  stats : List (String × StatsEntry)
  finalStatus : RunStatus
deriving DecidableEq

/-- Embedding of `run_backup`: write `in_progress` to the manifest before
any collection work; run custom-post-type detection when configured (its
`WPAPIError` re-raise is the one failure that escapes the body, modelled by
`detectRaise`); run the collection loop; then write exactly one terminal
status — `completed` when nothing was raised, `interrupted` on
`KeyboardInterrupt`, `failed` with the causing error otherwise — saving the
manifest in every case. -/
def runBackup (detectRaise : Option String) (cols : List (String × ColOutcome)) : OrchRun :=
  if (cols.any (fun c => c.1 == ("custom_post_types"))) && detectRaise.isSome then
    ⟨[OrchEvent.save RunStatus.inProgress, OrchEvent.save RunStatus.failed], [],
     RunStatus.failed⟩
  else if (processCollections cols).2.2 then
    ⟨OrchEvent.save RunStatus.inProgress :: (processCollections cols).1 ++
       [OrchEvent.save RunStatus.interrupted],
     (processCollections cols).2.1, RunStatus.interrupted⟩
  else
    ⟨OrchEvent.save RunStatus.inProgress :: (processCollections cols).1 ++
       [OrchEvent.save RunStatus.completed],
     (processCollections cols).2.1, RunStatus.completed⟩

/-! ### Client initialization (`_init_wp_client`) -/

/-- Outcome of the connection test `discover_endpoints()` inside
`_init_wp_client`: site information, an authentication error
(`WPAPIAuthError`), or another API error. -/
inductive DiscoverOutcome where
  | ok (siteName : String) (siteDescription : String)
  | authError (msg : String)
  | apiError (msg : String)
deriving DecidableEq

/-- Result of `_init_wp_client`: a client in place (authenticated or
public), or an exception propagated to the caller. -/
inductive InitResult where
  | client (authenticated : Bool)
  | raised (msg : String)
deriving DecidableEq

/-- Embedding of `_init_wp_client`: a successful discovery keeps the client
in the requested mode; a `WPAPIAuthError` is re-raised when credentials
were supplied (`is_authenticated` true) and otherwise answered by
reinitializing an unauthenticated client and continuing; any other error
propagates. -/
def initWpClient (isAuthenticated : Bool) (discover : DiscoverOutcome) : InitResult :=
  match discover with
  | DiscoverOutcome.ok _ _ => InitResult.client isAuthenticated
  | DiscoverOutcome.authError m =>
    if isAuthenticated then InitResult.raised m else InitResult.client false
  | DiscoverOutcome.apiError m => InitResult.raised m

/-! ### Claims C7 to C9 -/

theorem processCollections_append (pre post : List (String × ColOutcome))
    (hpre : ∀ c ∈ pre, c.2 ≠ ColOutcome.interrupt) :
    (processCollections (pre ++ post)).1 =
      (processCollections pre).1 ++ (processCollections post).1 ∧
    (processCollections (pre ++ post)).2.1 =
      (processCollections pre).2.1 ++ (processCollections post).2.1 := by
  induction pre with
  | nil => exact ⟨rfl, rfl⟩
  | cons c rest ih =>
    obtain ⟨name, oc⟩ := c
    have hoc : oc ≠ ColOutcome.interrupt := hpre (name, oc) (List.mem_cons_self _ _)
    have hrest : ∀ c ∈ rest, c.2 ≠ ColOutcome.interrupt :=
      fun c hc => hpre c (List.mem_cons_of_mem _ hc)
    obtain ⟨ih1, ih2⟩ := ih hrest
    by_cases hn : name = ("custom_post_types")
    · simp [processCollections, hn, ih1, ih2]
    · cases hrc : recordCollection oc with
      | some e => simp [processCollections, hn, hoc, hrc, ih1, ih2]
      | none => simp [processCollections, hn, hoc, hrc, ih1, ih2]

theorem processCollections_no_save (cols : List (String × ColOutcome)) :
    ∀ e ∈ (processCollections cols).1, statusOf e = none := by
  induction cols with
  | nil => intro e he; simp [processCollections] at he
  | cons c rest ih =>
    obtain ⟨name, oc⟩ := c
    intro e he
    simp only [processCollections] at he
    by_cases hn : name = ("custom_post_types")
    · rw [if_pos hn] at he
      exact ih e he
    · rw [if_neg hn] at he
      by_cases ho : oc = ColOutcome.interrupt
      · rw [if_pos ho] at he
        simp only [List.mem_singleton] at he
        subst he; rfl
      · rw [if_neg ho] at he
        simp only [List.mem_cons] at he
        rcases he with h | h
        · subst h; rfl
        · exact ih e h

theorem processCollections_interrupt (cols : List (String × ColOutcome)) :
    (processCollections cols).2.2 =
      cols.any (fun c => !(c.1 == ("custom_post_types")) && c.2 == ColOutcome.interrupt) := by
  induction cols with
  | nil => rfl
  | cons c rest ih =>
    obtain ⟨name, oc⟩ := c
    simp only [processCollections, List.any_cons]
    by_cases hn : name = ("custom_post_types")
    · rw [if_pos hn]
      simp [hn, ih]
    · rw [if_neg hn]
      by_cases ho : oc = ColOutcome.interrupt
      · rw [if_pos ho]
        simp [hn, ho]
      · rw [if_neg ho]
        simp [hn, ho, ih]

/-- C7: for every configured sequence of collections, an error raised while
backing up one collection (any outcome the per-collection handlers catch
and record as an error entry) is captured into that collection's stats
slot, and every subsequent configured collection is still attempted and
has its result recorded, exactly as if the failing collection had merely
contributed its error entry. -/
theorem collection_error_isolation (pre post : List (String × ColOutcome))
    (name : String) (oc : ColOutcome) (msg : String)
    (hname : name ≠ ("custom_post_types"))
    (hrec : recordCollection oc = some (StatsEntry.err msg))
    (hpre : ∀ c ∈ pre, c.2 ≠ ColOutcome.interrupt) :
    (processCollections (pre ++ (name, oc) :: post)).1 =
      (processCollections pre).1 ++
        OrchEvent.attempt name :: (processCollections post).1 ∧
    (processCollections (pre ++ (name, oc) :: post)).2.1 =
      (processCollections pre).2.1 ++
        (name, StatsEntry.err msg) :: (processCollections post).2.1 := by
  have hoc : oc ≠ ColOutcome.interrupt := by
    intro h
    subst h
    simp [recordCollection] at hrec
  obtain ⟨h1, h2⟩ := processCollections_append pre ((name, oc) :: post) hpre
  rw [h1, h2]
  constructor
  · congr 1
    simp only [processCollections]
    rw [if_neg hname, if_neg hoc]
  · congr 1
    simp only [processCollections]
    rw [if_neg hname, if_neg hoc, hrec]

/-- C7 witness: a three-collection run whose middle collection raises a
generic API error; the error lands in the middle slot and the following
collection is attempted and recorded. -/
theorem collection_error_isolation_witness :
    recordCollection (ColOutcome.apiError ("x")) = some (StatsEntry.err ("x")) ∧
    (processCollections
        ([(("posts"), ColOutcome.ok 3 1)] ++
          (("pages"), ColOutcome.apiError ("x")) :: [(("tags"), ColOutcome.ok 2 1)])).2.1 =
      (processCollections [(("posts"), ColOutcome.ok 3 1)]).2.1 ++
        (("pages"), StatsEntry.err ("x")) ::
          (processCollections [(("tags"), ColOutcome.ok 2 1)]).2.1 :=
  ⟨rfl,
   (collection_error_isolation [(("posts"), ColOutcome.ok 3 1)]
      [(("tags"), ColOutcome.ok 2 1)] ("pages") (ColOutcome.apiError ("x")) ("x")
      (by decide) rfl (by decide)).2⟩

/-- C8: for every run of the orchestrator, the first manifest write is the
`in_progress` status and it precedes all collection work; the saved
statuses of the run are exactly `in_progress` followed by one terminal
status, so `in_progress` is never skipped; the last event is the terminal
save; and the terminal status is `completed` exactly when nothing was
raised, `interrupted` exactly on a keyboard interrupt, and `failed`
exactly when the detection phase raised. -/
theorem manifest_status_transitions (detectRaise : Option String)
    (cols : List (String × ColOutcome)) :
    (runBackup detectRaise cols).events.head? =
        some (OrchEvent.save RunStatus.inProgress)
    ∧ (runBackup detectRaise cols).events.filterMap statusOf =
        [RunStatus.inProgress, (runBackup detectRaise cols).finalStatus]
    ∧ (runBackup detectRaise cols).events.getLast? =
        some (OrchEvent.save (runBackup detectRaise cols).finalStatus)
    ∧ (runBackup detectRaise cols).finalStatus ≠ RunStatus.inProgress
    ∧ ((runBackup detectRaise cols).finalStatus = RunStatus.failed ↔
        (cols.any (fun c => c.1 == ("custom_post_types")) && detectRaise.isSome) = true)
    ∧ ((runBackup detectRaise cols).finalStatus = RunStatus.interrupted ↔
        ((cols.any (fun c => c.1 == ("custom_post_types")) && detectRaise.isSome) = false ∧
          cols.any (fun c => !(c.1 == ("custom_post_types")) &&
            c.2 == ColOutcome.interrupt) = true))
    ∧ ((runBackup detectRaise cols).finalStatus = RunStatus.completed ↔
        ((cols.any (fun c => c.1 == ("custom_post_types")) && detectRaise.isSome) = false ∧
          cols.any (fun c => !(c.1 == ("custom_post_types")) &&
            c.2 == ColOutcome.interrupt) = false)) := by
  have hmid := processCollections_no_save cols
  have hflag := processCollections_interrupt cols
  unfold runBackup
  by_cases hd : (cols.any (fun c => c.1 == ("custom_post_types")) && detectRaise.isSome) = true
  · rw [if_pos hd]
    refine ⟨rfl, by simp [statusOf], rfl, by decide, ?_, ?_, ?_⟩
    · simp [hd]
    · simp [hd]
    · simp [hd]
  · rw [if_neg hd]
    rw [Bool.not_eq_true] at hd
    by_cases hi : (processCollections cols).2.2 = true
    · rw [if_pos hi]
      rw [hflag] at hi
      refine ⟨rfl, ?_, ?_, fun h => RunStatus.noConfusion h, ?_, ?_, ?_⟩
      · show List.filterMap statusOf (OrchEvent.save RunStatus.inProgress ::
            (processCollections cols).1 ++ [OrchEvent.save RunStatus.interrupted]) =
          [RunStatus.inProgress, RunStatus.interrupted]
        rw [List.filterMap_append, List.filterMap_cons_some
            (rfl : statusOf (OrchEvent.save RunStatus.inProgress) = some RunStatus.inProgress),
          List.filterMap_eq_nil_iff.2 hmid]
        rfl
      · show (OrchEvent.save RunStatus.inProgress :: (processCollections cols).1 ++
            [OrchEvent.save RunStatus.interrupted]).getLast? =
          some (OrchEvent.save RunStatus.interrupted)
        rw [List.getLast?_concat]
      · simp [hd]
      · simp [hd, hi]
      · simp [hd, hi]
    · rw [if_neg hi]
      rw [Bool.not_eq_true, hflag] at hi
      refine ⟨rfl, ?_, ?_, fun h => RunStatus.noConfusion h, ?_, ?_, ?_⟩
      · show List.filterMap statusOf (OrchEvent.save RunStatus.inProgress ::
            (processCollections cols).1 ++ [OrchEvent.save RunStatus.completed]) =
          [RunStatus.inProgress, RunStatus.completed]
        rw [List.filterMap_append, List.filterMap_cons_some
            (rfl : statusOf (OrchEvent.save RunStatus.inProgress) = some RunStatus.inProgress),
          List.filterMap_eq_nil_iff.2 hmid]
        rfl
      · show (OrchEvent.save RunStatus.inProgress :: (processCollections cols).1 ++
            [OrchEvent.save RunStatus.completed]).getLast? =
          some (OrchEvent.save RunStatus.completed)
        rw [List.getLast?_concat]
      · simp [hd]
      · simp [hd, hi]
      · simp [hd, hi]

/-- C8 witness: the transition shape of a concrete run that completes
normally. -/
theorem manifest_status_transitions_witness :
    (runBackup none [(("posts"), ColOutcome.ok 3 1)]).events.filterMap statusOf =
      [RunStatus.inProgress, (runBackup none [(("posts"), ColOutcome.ok 3 1)]).finalStatus] :=
  (manifest_status_transitions none [(("posts"), ColOutcome.ok 3 1)]).2.1

/-- C9 counterexample: when credentials are supplied (authenticated mode)
and the remote rejects them during client initialization, the tool raises
and the run aborts instead of degrading to public-only mode and
continuing. -/
theorem auth_rejection_not_degraded :
    initWpClient true (DiscoverOutcome.authError ("invalid credentials")) =
      InitResult.raised ("invalid credentials") ∧
    initWpClient true (DiscoverOutcome.authError ("invalid credentials")) ≠
      InitResult.client false := by
  constructor
  · rfl
  · decide

/-- C9 (amended): a rejection of supplied credentials during client
initialization re-raises the authentication error, aborting the run; the
graceful continuation in public-only mode happens only when the backup is
already unauthenticated and an authentication error occurs during the
connection test. -/
theorem auth_rejection_aborts (m : String) :
    initWpClient true (DiscoverOutcome.authError m) = InitResult.raised m ∧
    initWpClient false (DiscoverOutcome.authError m) = InitResult.client false := by
  constructor
  · rfl
  · rfl
